import Mathlib

/-
  Verification development for the FlexiPay sale/escrow engine
  (src/src/contract.rs, an Andromeda-crowdfund style contract).

  The contract's storage items (CONFIG, SALE_CONDUCTED, NUMBER_OF_TOKENS_AVAILABLE,
  STATE, AVAILABLE_TOKENS, PURCHASES) are embedded as a `Storage` record; cw_storage_plus
  maps are association lists kept sorted by key (`Map::range` iterates ascending).
  Uint128 values are `Nat` with explicit checks against 2^128: the source's
  `checked_add/checked_sub/checked_mul` become `Except`-returning operations yielding
  the Overflow contract error, and raw arithmetic that would panic in the compiled
  wasm (overflow checks enabled) yields a distinguished panic error. The u32
  subtraction `max_amount_per_wallet - purchases.len()` is likewise modelled as
  panicking on underflow. Responses are modelled as their lists of outbound
  messages (attributes and events carry no state and are not referenced by any
  property). Contract errors abort the call; the host applies the returned
  storage only on success, which `applyExec` makes explicit.

  The external cw721 token contract (queried by `query_tokens` and driven by the
  outbound Mint/TransferNft/Burn commands) is modelled as an ownership map
  `token_id -> owner`; a chain-level step executes a call and then applies its
  outbound commands, the whole call reverting if a command fails, exactly as the
  CosmWasm host does for messages added to a response.
-/

namespace FlexiPay

/-- Contract errors (the `ContractError` variants reachable from the embedded code),
plus `arithPanic` for unchecked arithmetic that would abort the wasm instance. -/
inductive Err where
  | unauthorized
  | payment
  | saleStarted
  | cannotMintAfterSaleConducted
  | tooManyMintMessages
  | noOngoingSale
  | tokenNotAvailable
  | purchaseLimitReached
  | allTokensPurchased
  | insufficientFunds
  | saleNotEnded
  | minSalesExceeded
  | noPurchases
  | limitMustNotBeZero
  | startTimeAfterEndTime
  | startTimeInThePast
  | stdNotFound
  | overflow
  | arithPanic
deriving DecidableEq

/-- Decidable equality for call results. -/
instance {ε α : Type} [DecidableEq ε] [DecidableEq α] : DecidableEq (Except ε α) := fun x y =>
  match x, y with
  | .ok a, .ok b =>
    if h : a = b then .isTrue (by rw [h]) else
      .isFalse (by intro hc; cases hc; exact h rfl)
  | .error a, .error b =>
    if h : a = b then .isTrue (by rw [h]) else
      .isFalse (by intro hc; cases hc; exact h rfl)
  | .ok _, .error _ => .isFalse (by intro hc; cases hc)
  | .error _, .ok _ => .isFalse (by intro hc; cases hc)

/-- A native coin: denomination and (Uint128) amount. -/
structure Coin where
  denom : String
  amount : Nat
deriving DecidableEq

/-- Sent funds, as in `MessageInfo::funds`. -/
abbrev CoinList := List Coin

/-- cosmwasm_std `has_coins`: some coin of the required denomination has at
least the required amount. -/
def hasCoins (funds : CoinList) (required : Coin) : Bool :=
  funds.any (fun c => c.denom = required.denom ∧ required.amount ≤ c.amount)

/-- andromeda_std `deduct_funds`: subtract `c` from the first coin of matching
denomination (the entry stays, possibly with amount 0); error if absent or short. -/
def deductFunds (funds : CoinList) (c : Coin) : Except Err CoinList :=
  match funds with
  | [] => .error .insufficientFunds
  | f :: rest =>
    if f.denom = c.denom then
      if c.amount ≤ f.amount then .ok (⟨f.denom, f.amount - c.amount⟩ :: rest)
      else .error .insufficientFunds
    else do
      let rest' ← deductFunds rest c
      .ok (f :: rest')

/-- Uint128 modulus bound. -/
def U128LIM : Nat := 2 ^ 128

/-- Uint128 `checked_add` (ContractError::Overflow on wrap). -/
def checkedAdd (a b : Nat) : Except Err Nat :=
  if a + b < U128LIM then .ok (a + b) else .error .overflow

/-- Uint128 `checked_sub` (ContractError::Overflow on underflow). -/
def checkedSub (a b : Nat) : Except Err Nat :=
  if b ≤ a then .ok (a - b) else .error .overflow

/-- Uint128 `checked_mul` (ContractError::Overflow on wrap). -/
def checkedMul (a b : Nat) : Except Err Nat :=
  if a * b < U128LIM then .ok (a * b) else .error .overflow

/-- Raw u128 addition: panics (aborts the call) on wrap. -/
def addPan (a b : Nat) : Except Err Nat :=
  if a + b < U128LIM then .ok (a + b) else .error .arithPanic

/-- Raw u128 multiplication: panics (aborts the call) on wrap. -/
def mulPan (a b : Nat) : Except Err Nat :=
  if a * b < U128LIM then .ok (a * b) else .error .arithPanic

/-- Byte-lexicographic order on character lists (the key order of
cw_storage_plus maps). -/
def chLt : List Char → List Char → Bool
  | [], [] => false
  | [], _ :: _ => true
  | _ :: _, [] => false
  | a :: as, b :: bs =>
    if a.toNat < b.toNat then true
    else if b.toNat < a.toNat then false
    else chLt as bs

/-- Byte-lexicographic order on storage keys. -/
def strLt (a b : String) : Bool := chLt a.data b.data

/-- Lookup in an association list keyed by strings (cw Map `may_load`). -/
def mapGet {α : Type} (k : String) : List (String × α) → Option α
  | [] => none
  | (k', v) :: rest => if k = k' then some v else mapGet k rest

/-- Sorted upsert into an association list (cw Map `save`). -/
def mapInsert {α : Type} (k : String) (v : α) : List (String × α) → List (String × α)
  | [] => [(k, v)]
  | (k', v') :: rest =>
    if k = k' then (k, v) :: rest
    else if strLt k k' then (k, v) :: (k', v') :: rest
    else (k', v') :: mapInsert k v rest

/-- Removal from an association list (cw Map `remove`). -/
def mapRemove {α : Type} (k : String) : List (String × α) → List (String × α)
  | [] => []
  | (k', v') :: rest => if k = k' then rest else (k', v') :: mapRemove k rest

/-- Membership in a sorted key set (AVAILABLE_TOKENS `has`). -/
def setHas (k : String) : List String → Bool
  | [] => false
  | k' :: rest => k = k' ∨ setHas k rest

/-- Sorted, deduplicating insertion into a key set (AVAILABLE_TOKENS `save`). -/
def setInsert (k : String) : List String → List String
  | [] => [k]
  | k' :: rest =>
    if k = k' then k' :: rest
    else if strLt k k' then k :: k' :: rest
    else k' :: setInsert k rest

/-- Removal from a key set (AVAILABLE_TOKENS `remove`). -/
def setRemove (k : String) : List String → List String
  | [] => []
  | k' :: rest => if k = k' then rest else k' :: setRemove k rest

/-- The Config storage item. -/
structure Config where
  token_address : String
  can_mint_after_sale : Bool
deriving DecidableEq

/-- A funds recipient: resolved address, and whether an AMP message is attached
(`Recipient::msg`), which selects the direct-send vs kernel-packet path. -/
structure Recipient where
  address : String
  hasMsg : Bool
deriving DecidableEq

/-- The State storage item as constructed by `execute_start_sale` (the persisted
sale record; the extended fields referenced only by the dead `end_condition_met`
evaluator and the tests are not part of it). -/
structure SaleSt where
  end_time : Nat
  price : Coin
  min_tokens_sold : Nat
  max_amount_per_wallet : Nat
  amount_sold : Nat
  amount_to_send : Nat
  amount_transferred : Nat
  recipient : Recipient
deriving DecidableEq

/-- A recorded purchase (crate::state::Purchase). The source also stores the
captured rate sub-messages (`msgs`), which no code in contract.rs reads back;
that opaque field is omitted. -/
structure Purchase where
  token_id : String
  tax_amount : Nat
  purchaser : String
deriving DecidableEq

/-- The contract's persisted storage. -/
structure Storage where
  owner : String
  config : Config
  sale_conducted : Bool
  number_of_tokens_available : Nat
  state : Option SaleSt
  available_tokens : List String
  purchases : List (String × List Purchase)
deriving DecidableEq

/-- Block environment for a call. -/
structure EnvT where
  blockTime : Nat
  contractAddr : String
deriving DecidableEq

/-- Message info for a call. -/
structure Info where
  sender : String
  funds : CoinList
deriving DecidableEq

/-- Outbound commands emitted in a response. -/
inductive OutMsg where
  | wasmMint (contractAddr tokenId owner : String)
  | transferNft (contractAddr recipient tokenId : String)
  | burn (contractAddr tokenId : String)
  | bankSend (toAddress : String) (amount : CoinList)
  | sendToRecipient (address : String) (viaAmp : Bool) (amount : CoinList)
deriving DecidableEq

/-- A response, modelled as its list of outbound messages. -/
abbrev Response := List OutMsg

/-- The host applies the storage returned by an execute entry point only when it
succeeds; an error leaves the persisted storage untouched. -/
def applyExec (storage : Storage) : Except Err (Storage × Response) → Storage
  | .ok (s, _) => s
  | .error _ => storage

/-- MAX_LIMIT constant. -/
def MAX_LIMIT : Nat := 100

/-- DEFAULT_LIMIT constant. -/
def DEFAULT_LIMIT : Nat := 50

/-- MAX_MINT_LIMIT constant. -/
def MAX_MINT_LIMIT : Nat := 100

/-- cw_utils `nonpayable`: errors when the caller attached funds. -/
def nonpayable (info : Info) : Except Err Unit :=
  if info.funds = [] then .ok () else .error .payment

/-- cw_utils `Expiration::is_expired` for an at-time expiration. -/
def isExpired (endTime blockTime : Nat) : Bool :=
  endTime ≤ blockTime

/-- The contract's `instantiate`: stores Config, SALE_CONDUCTED = false and a
zero NUMBER_OF_TOKENS_AVAILABLE, and records the owner. -/
def instantiate (owner tokenAddress : String) (canMintAfterSale : Bool) : Storage :=
  { owner := owner
    config := ⟨tokenAddress, canMintAfterSale⟩
    sale_conducted := false
    number_of_tokens_available := 0
    state := none
    available_tokens := []
    purchases := [] }

/-- A CrowdfundMintMsg (token_uri/extension are opaque and omitted). -/
structure CrowdfundMintMsg where
  token_id : String
  owner : Option String
deriving DecidableEq

/-- Modelled from the spec: `get_available_tokens` lives in `crate::state`
(state.rs), which is not under src/. Per the spec's Token Registry
("list-with-pagination") and the caller's comment in contract.rs ("The number of
token ids here is equal to min(number_of_tokens_wanted, num_tokens_left)"), it
returns the registry's identifiers in ascending key order, starting after the
optional cursor, up to `limit` (defaulting to DEFAULT_LIMIT). -/
def get_available_tokens (storage : Storage) (start_after : Option String)
    (limit : Option Nat) : List String :=
  let base := match start_after with
    | none => storage.available_tokens
    | some s => storage.available_tokens.filter (fun t => strLt s t)
  base.take (limit.getD DEFAULT_LIMIT)

/-- The inner `mint` helper: when the mint owner is the crowdfund contract itself,
the token is registered as available and the counter incremented (Uint128 `+`,
panicking on wrap); in every case the cw721 Mint command is emitted. -/
def mint (env : EnvT) (storage : Storage) (tokenContract : String)
    (m : CrowdfundMintMsg) : Except Err (Storage × Response) := do
  let owner := m.owner.getD env.contractAddr
  if owner = env.contractAddr then
    let n ← addPan storage.number_of_tokens_available 1
    let storage := { storage with
      available_tokens := setInsert m.token_id storage.available_tokens
      number_of_tokens_available := n }
    .ok (storage, [.wasmMint tokenContract m.token_id owner])
  else
    .ok (storage, [.wasmMint tokenContract m.token_id owner])

/-- Folding `mint` over the batch of mint messages in `execute_mint`. -/
def mintLoop (env : EnvT) (tokenContract : String) :
    Storage → List CrowdfundMintMsg → Except Err (Storage × Response)
  | storage, [] => .ok (storage, [])
  | storage, m :: rest => do
    let (storage, r) ← mint env storage tokenContract m
    let (storage, rs) ← mintLoop env tokenContract storage rest
    .ok (storage, r ++ rs)

/-- Embedding of `execute_mint`: nonpayable; at most MAX_MINT_LIMIT messages; owner only; no
ongoing sale; minting after a conducted sale only when configured. -/
def execute_mint (env : EnvT) (info : Info) (storage : Storage)
    (mint_msgs : List CrowdfundMintMsg) : Except Err (Storage × Response) := do
  let _ ← nonpayable info
  if ¬ (mint_msgs.length ≤ MAX_MINT_LIMIT) then .error .tooManyMintMessages else
  if info.sender ≠ storage.owner then .error .unauthorized else
  if storage.state.isSome then .error .saleStarted else
  if ¬ (storage.config.can_mint_after_sale ∨ ¬ storage.sale_conducted) then
    .error .cannotMintAfterSaleConducted
  else
    mintLoop env storage.config.token_address storage mint_msgs

/-- Embedding of `execute_start_sale`: owner only, nonpayable; validates the optional start
time against the block time and requires end after start; marks SALE_CONDUCTED
(saved before the sale-exists check, which reverts anyway on error); requires no
existing sale; defaults max_amount_per_wallet to 1; creates the sale record with
all counters at zero. -/
def execute_start_sale (env : EnvT) (info : Info) (storage : Storage)
    (start_time : Option Nat) (end_time : Nat) (price : Coin)
    (min_tokens_sold : Nat) (max_amount_per_wallet : Option Nat)
    (recipient : Recipient) : Except Err (Storage × Response) := do
  let _ ← nonpayable info
  if info.sender ≠ storage.owner then .error .unauthorized else
  let start_expiration ← match start_time with
    | none => Except.ok env.blockTime
    | some s => if s ≤ env.blockTime then .error .startTimeInThePast else .ok s
  if ¬ (start_expiration < end_time) then .error .startTimeAfterEndTime else
  let storage := { storage with sale_conducted := true }
  if storage.state.isSome then .error .saleStarted else
  let maxw := max_amount_per_wallet.getD 1
  let st : SaleSt :=
    { end_time := end_time
      price := price
      min_tokens_sold := min_tokens_sold
      max_amount_per_wallet := maxw
      amount_sold := 0
      amount_to_send := 0
      amount_transferred := 0
      recipient := recipient }
  .ok ({ storage with state := some st }, [])

/-- The per-token loop of `purchase_tokens`: accumulates total tax, bumps
amount_to_send and amount_sold (checked adds), appends the purchase record,
removes the token from the registry and decrements the running counter
(checked sub). -/
def purchaseLoop (taxAmt remAmt : Nat) (sender : String) :
    List String → Storage → SaleSt → List Purchase → Nat → Nat →
    Except Err (Storage × SaleSt × List Purchase × Nat × Nat)
  | [], storage, st, ps, totalTax, currentNumber =>
    .ok (storage, st, ps, totalTax, currentNumber)
  | token_id :: rest, storage, st, ps, totalTax, currentNumber => do
    let totalTax ← checkedAdd totalTax taxAmt
    let toSend ← checkedAdd st.amount_to_send remAmt
    let sold ← checkedAdd st.amount_sold 1
    let st := { st with amount_to_send := toSend, amount_sold := sold }
    let ps := ps ++ [⟨token_id, taxAmt, sender⟩]
    let storage := { storage with
      available_tokens := setRemove token_id storage.available_tokens }
    let currentNumber ← checkedSub currentNumber 1
    purchaseLoop taxAmt remAmt sender rest storage st ps totalTax currentNumber

/-- The explicit result of a successful `purchaseLoop` run: the tokens removed
from the registry, the counters bumped, one purchase record appended per token,
tax accumulated and the running counter decremented. -/
def purchaseLoopSpec (t r : Nat) (s : String) (ids : List String)
    (storage : Storage) (st : SaleSt) (ps : List Purchase) (totalTax cur : Nat) :
    Storage × SaleSt × List Purchase × Nat × Nat :=
  let storage2 : Storage := { storage with
    available_tokens := ids.foldl (fun a x => setRemove x a) storage.available_tokens }
  let st2 : SaleSt := { st with
    amount_to_send := st.amount_to_send + r * ids.length
    amount_sold := st.amount_sold + ids.length }
  (storage2, st2, ps ++ ids.map (fun x => (⟨x, t, s⟩ : Purchase)),
   totalTax + t * ids.length, cur - ids.length)

/-- Embedding of `purchase_tokens`. The injected funds-split strategy (the module hook
`on_funds_transfer` plus `get_tax_amount`) is represented by the per-item tax
`taxAmt` and net remainder `remAmt` it produced for the sale price on this call.
Checks: tokens nonempty; funds cover price × n (raw u128 multiplication) before
tax; after the loop, funds cover price × n + total tax (checked arithmetic).
Returns the required payment. -/
def purchase_tokens (taxAmt remAmt : Nat) (storage : Storage)
    (token_ids : List String) (info : Info) (st : SaleSt)
    (purchases : List Purchase) :
    Except Err (Storage × SaleSt × List Purchase × Coin) := do
  if token_ids.isEmpty then .error .allTokensPurchased else
  let n := token_ids.length
  let base ← mulPan st.price.amount n
  if ¬ hasCoins info.funds ⟨st.price.denom, base⟩ then .error .insufficientFunds else
  let (storage, st, purchases, totalTax, currentNumber) ←
    purchaseLoop taxAmt remAmt info.sender token_ids storage st purchases 0
      storage.number_of_tokens_available
  let storage := { storage with number_of_tokens_available := currentNumber }
  let m ← checkedMul st.price.amount n
  let reqAmt ← checkedAdd m totalTax
  let required : Coin := ⟨st.price.denom, reqAmt⟩
  if ¬ hasCoins info.funds required then .error .insufficientFunds else
  .ok (storage, st, purchases, required)

/-- Embedding of `execute_purchase` (quantity form): requires an ongoing, unexpired sale;
computes `max_amount_per_wallet - purchases.len()` as a u32 (panicking on
underflow); requires remaining allowance positive; clamps the request; obtains
up to that many registry tokens; purchases them; saves ledger and state; refunds
any surplus of the sent funds as a direct bank transfer when at least one unit
of the price denomination remains. -/
def execute_purchase (taxAmt remAmt : Nat) (env : EnvT) (info : Info)
    (storage : Storage) (number_of_tokens : Option Nat) :
    Except Err (Storage × Response) := do
  let sender := info.sender
  match storage.state with
  | none => .error .noOngoingSale
  | some st =>
    if isExpired st.end_time env.blockTime then .error .noOngoingSale else
    let purchases := (mapGet sender storage.purchases).getD []
    if st.max_amount_per_wallet < purchases.length then .error .arithPanic else
    let max_possible := st.max_amount_per_wallet - purchases.length
    if ¬ (0 < max_possible) then .error .purchaseLimitReached else
    let number_of_tokens_wanted :=
      number_of_tokens.elim max_possible (fun n => min n max_possible)
    let token_ids := get_available_tokens storage none (some number_of_tokens_wanted)
    let (storage, st, purchases, required) ←
      purchase_tokens taxAmt remAmt storage token_ids info st purchases
    let storage := { storage with
      purchases := mapInsert sender purchases storage.purchases
      state := some st }
    let funds ← deductFunds info.funds required
    let resp : Response :=
      if hasCoins funds ⟨st.price.denom, 1⟩ then [.bankSend sender funds] else []
    .ok (storage, resp)

/-- Embedding of `execute_purchase_by_token_id`: requires an ongoing, unexpired sale and that
the specific token is available; the same u32 allowance computation; purchases
exactly that token. -/
def execute_purchase_by_token_id (taxAmt remAmt : Nat) (env : EnvT) (info : Info)
    (storage : Storage) (token_id : String) : Except Err (Storage × Response) := do
  let sender := info.sender
  match storage.state with
  | none => .error .noOngoingSale
  | some st =>
    if isExpired st.end_time env.blockTime then .error .noOngoingSale else
    let purchases := (mapGet sender storage.purchases).getD []
    if ¬ setHas token_id storage.available_tokens then .error .tokenNotAvailable else
    if st.max_amount_per_wallet < purchases.length then .error .arithPanic else
    let max_possible := st.max_amount_per_wallet - purchases.length
    if ¬ (0 < max_possible) then .error .purchaseLimitReached else
    let (storage, st, purchases, _required) ←
      purchase_tokens taxAmt remAmt storage [token_id] info st purchases
    let storage := { storage with
      state := some st
      purchases := mapInsert sender purchases storage.purchases }
    .ok (storage, [])

/-- Embedding of `process_refund`: merges one buyer's purchases into a single refund payment
(tax + unit price summed over the entries, a sum whose Uint128 overflow is
unreachable for stored ledgers) and removes the buyer from PURCHASES; no message
when the amount is zero. The source indexes `purchases[0]`, which panics on an
empty slice; callers only pass stored ledger entries, which are nonempty, and
the model returns no message for the empty list. -/
def process_refund (storage : Storage) (purchases : List Purchase) (price : Coin) :
    Storage × Option OutMsg :=
  match purchases.head? with
  | none => (storage, none)
  | some p0 =>
    let purchaser := p0.purchaser
    let storage := { storage with purchases := mapRemove purchaser storage.purchases }
    let amount := (purchases.map (fun p => p.tax_amount + price.amount)).sum
    if 0 < amount then
      (storage, some (.bankSend purchaser [⟨price.denom, amount⟩]))
    else
      (storage, none)

/-- cw721 `Tokens` query: identifiers owned by `owner` in ascending order, up to
`limit`. The external token contract is an ownership map `token_id -> owner`. -/
def query_tokens (cw : List (String × String)) (owner : String) (limit : Nat) :
    List String :=
  ((cw.filter (fun p => p.2 = owner)).map (fun p => p.1)).take limit

/-- Embedding of `get_burn_messages`: queries up to `limit` tokens still owned by the
contract, removes each from AVAILABLE_TOKENS (without touching the counter) and
emits a Burn command for each. -/
def get_burn_messages (cw : List (String × String)) (storage : Storage)
    (address : String) (limit : Nat) : Storage × Response :=
  let tokenAddress := storage.config.token_address
  let tokens_to_burn := query_tokens cw address limit
  (({ storage with
      available_tokens :=
        tokens_to_burn.foldl (fun acc t => setRemove t acc) storage.available_tokens }),
    tokens_to_burn.map (fun t => OutMsg.burn tokenAddress t))

/-- Embedding of `clear_state`: removes STATE and zeroes the counter. -/
def clear_state (storage : Storage) : Storage :=
  { storage with state := none, number_of_tokens_available := 0 }

/-- Embedding of `transfer_tokens_and_send_funds`. When every sold token has been transferred
(`amount_transferred == amount_sold`): forward `amount_to_send` (if positive) to
the recipient — directly or as an AMP packet — and zero it; then build burn
commands (the source passes `None` where `get_burn_messages` expects a usize
limit; modelled as the default batch limit) and clear state when none remain.
Otherwise: batch the ledger entries of the first DEFAULT_LIMIT buyers in
ascending key order, flattened (the batch is not removed from PURCHASES), emit a
TransferNft per record and add the batch size to `amount_transferred` (the
source reads the token address from a `state.token_address` field that the
persisted record does not carry; modelled as the configured token address). -/
def transfer_tokens_and_send_funds (cw : List (String × String)) (env : EnvT)
    (_info : Info) (storage : Storage) : Except Err (Storage × Response) := do
  match storage.state with
  | none => .error .stdNotFound
  | some st =>
    if st.amount_transferred = st.amount_sold then
      let (storage, fundMsgs) :=
        if 0 < st.amount_to_send then
          let funds : CoinList := [⟨st.price.denom, st.amount_to_send⟩]
          let m := OutMsg.sendToRecipient st.recipient.address st.recipient.hasMsg funds
          let st := { st with amount_to_send := 0 }
          (({ storage with state := some st } : Storage), [m])
        else (storage, ([] : Response))
      let (storage, burnMsgs) :=
        get_burn_messages cw storage env.contractAddr DEFAULT_LIMIT
      if burnMsgs.isEmpty then
        .ok (clear_state storage, fundMsgs)
      else
        .ok (storage, fundMsgs ++ burnMsgs)
    else
      let batch := ((storage.purchases.take DEFAULT_LIMIT).map (fun e => e.2)).flatten
      let transferMsgs := batch.map (fun p =>
        OutMsg.transferNft storage.config.token_address p.purchaser p.token_id)
      let t ← addPan st.amount_transferred batch.length
      let st := { st with amount_transferred := t }
      .ok ({ storage with state := some st }, transferMsgs)

/-- Embedding of `issue_refunds_and_burn_tokens` (defined in the source but never called by
any execute path): refunds the first `limit` buyers' full ledger entries, burns
up to `limit` contract-owned tokens, and clears state when both batches were
empty. -/
def issue_refunds_and_burn_tokens (cw : List (String × String)) (env : EnvT)
    (storage : Storage) (limit : Option Nat) : Except Err (Storage × Response) := do
  match storage.state with
  | none => .error .stdNotFound
  | some st =>
    let limit := min (limit.getD DEFAULT_LIMIT) MAX_LIMIT
    if ¬ (0 < limit) then .error .limitMustNotBeZero else
    let batch := (storage.purchases.take limit).map (fun e => e.2)
    let (storage, refundMsgs) :=
      batch.foldl (fun (acc : Storage × Response) ps =>
        let (storage, msg) := process_refund acc.1 ps st.price
        (storage, acc.2 ++ msg.toList)) (storage, [])
    let (storage, burnMsgs) := get_burn_messages cw storage env.contractAddr limit
    if burnMsgs.isEmpty ∧ batch.isEmpty then
      .ok (clear_state storage, refundMsgs ++ burnMsgs)
    else
      .ok (storage, refundMsgs ++ burnMsgs)

/-- Embedding of `execute_claim_refund`: nonpayable; requires a sale, that it has ended, that
the minimum was missed, and that the caller has purchases; refunds them. -/
def execute_claim_refund (env : EnvT) (info : Info) (storage : Storage) :
    Except Err (Storage × Response) := do
  let _ ← nonpayable info
  match storage.state with
  | none => .error .noOngoingSale
  | some st =>
    if ¬ isExpired st.end_time env.blockTime then .error .saleNotEnded else
    if ¬ (st.amount_sold < st.min_tokens_sold) then .error .minSalesExceeded else
    match mapGet info.sender storage.purchases with
    | none => .error .noPurchases
    | some purchases =>
      let (storage, msg) := process_refund storage purchases st.price
      .ok (storage, msg.toList)

/-- Embedding of `execute_end_sale`: nonpayable; loads STATE (an error when absent); when the
passed flag, time expiry, a zero available counter, or owner caller holds, runs
the settlement step `transfer_tokens_and_send_funds` (the refund branch of the
source, `issue_refunds_and_burn_tokens`, is never invoked); otherwise a no-op
success. -/
def execute_end_sale (cw : List (String × String)) (env : EnvT) (info : Info)
    (storage : Storage) (end_condition_met : Bool) :
    Except Err (Storage × Response) := do
  let _ ← nonpayable info
  match storage.state with
  | none => .error .stdNotFound
  | some st =>
    let n := storage.number_of_tokens_available
    let is_owner := info.sender = storage.owner
    if end_condition_met ∨ isExpired st.end_time env.blockTime ∨ n = 0 ∨ is_owner then
      transfer_tokens_and_send_funds cw env info storage
    else
      .ok (storage, [])

/-- The executable messages dispatched by `handle_execute`. -/
inductive Msg where
  | mintMsg (msgs : List CrowdfundMintMsg)
  | startSale (start_time : Option Nat) (end_time : Nat) (price : Coin)
      (min_tokens_sold : Nat) (max_amount_per_wallet : Option Nat)
      (recipient : Recipient)
  | purchase (number_of_tokens : Option Nat)
  | purchaseByTokenId (token_id : String)
  | claimRefund
  | endSale (end_condition_met : Bool)
deriving DecidableEq

/-- One external call: block time, caller, attached funds, the tax/remainder the
pluggable funds-split strategy yields for the sale price during this call, and
the message. -/
structure Call where
  time : Nat
  sender : String
  funds : CoinList
  tax : Nat
  rem : Nat
  msg : Msg
deriving DecidableEq

/-- The full chain state: the contract's storage, the external cw721 ownership
map, and the last block time seen (block times never decrease). -/
structure Chain where
  storage : Storage
  cw : List (String × String)
  now : Nat
deriving DecidableEq

/-- The crowdfund contract's own address. -/
def CROWDFUND : String := "crowdfund"

/-- Dispatching one call against the current chain state. -/
def execMsg (c : Chain) (call : Call) : Except Err (Storage × Response) :=
  let env : EnvT := ⟨call.time, CROWDFUND⟩
  let info : Info := ⟨call.sender, call.funds⟩
  match call.msg with
  | .mintMsg msgs => execute_mint env info c.storage msgs
  | .startSale s e p m w r => execute_start_sale env info c.storage s e p m w r
  | .purchase n => execute_purchase call.tax call.rem env info c.storage n
  | .purchaseByTokenId t =>
      execute_purchase_by_token_id call.tax call.rem env info c.storage t
  | .claimRefund => execute_claim_refund env info c.storage
  | .endSale b => execute_end_sale c.cw env info c.storage b

/-- Executing one outbound command against the external cw721 contract, the
crowdfund contract being the sender: Mint fails on an existing identifier,
TransferNft and Burn fail unless the crowdfund contract owns the token; bank and
recipient payment transfers always succeed. -/
def applyMsg (cw : List (String × String)) : OutMsg → Option (List (String × String))
  | .wasmMint _ tokenId owner =>
    match mapGet tokenId cw with
    | some _ => none
    | none => some (mapInsert tokenId owner cw)
  | .transferNft _ recipient tokenId =>
    match mapGet tokenId cw with
    | some o => if o = CROWDFUND then some (mapInsert tokenId recipient cw) else none
    | none => none
  | .burn _ tokenId =>
    match mapGet tokenId cw with
    | some o => if o = CROWDFUND then some (mapRemove tokenId cw) else none
    | none => none
  | .bankSend _ _ => some cw
  | .sendToRecipient _ _ _ => some cw

/-- Executing a response's commands in order; any failure fails the whole call. -/
def applyMsgs (cw : List (String × String)) : Response → Option (List (String × String))
  | [] => some cw
  | m :: rest => do
    let cw' ← applyMsg cw m
    applyMsgs cw' rest

/-- One committed chain step: block time must not go backwards, the call must
succeed, and every outbound command it emitted must execute; otherwise nothing
commits (the CosmWasm host reverts the transaction). -/
def stepChain (c : Chain) (call : Call) : Option (Chain × Response) :=
  if c.now ≤ call.time then
    match execMsg c call with
    | .error _ => none
    | .ok (storage, resp) =>
      match applyMsgs c.cw resp with
      | none => none
      | some cw => some (⟨storage, cw, call.time⟩, resp)
  else none

/-- Running a list of calls, all of which must commit; collects the responses. -/
def runCalls (c : Chain) : List Call → Option (Chain × List Response)
  | [] => some (c, [])
  | call :: rest => do
    let (c', resp) ← stepChain c call
    let (c'', resps) ← runCalls c' rest
    some (c'', resp :: resps)

/-- The chain right after `instantiate` (owner "alice", token contract "cw721",
minting after a sale allowed), with an empty cw721 and time zero. -/
def chain0 : Chain :=
  { storage := instantiate "alice" "cw721" true, cw := [], now := 0 }

/-- Shorthand for a coin of the sale denomination used in the concrete traces. -/
def uusd (n : Nat) : Coin := ⟨"uusd", n⟩

/-- The recipient used in the concrete traces. -/
def rcp : Recipient := ⟨"r", false⟩

/-- Trace for C2: mint one token, open a sale requiring 2 sales, sell 1, and
call EndSale after expiry (amount_sold = 1 < min_tokens_sold = 2). -/
def callsC2 : List Call := [
  ⟨0, "alice", [], 0, 0, .mintMsg [⟨"A", none⟩]⟩,
  ⟨1, "alice", [], 0, 0, .startSale none 10 (uusd 10) 2 (some 1) rcp⟩,
  ⟨2, "X", [uusd 10], 0, 10, .purchase (some 1)⟩,
  ⟨11, "bob", [], 0, 0, .endSale false⟩]

/-- Trace for C1/C5: two tokens, sale with wallet cap 2; buyer X purchases one;
the owner calls EndSale mid-sale (transferring token A without draining the
ledger); X purchases the second token. -/
def callsC5 : List Call := [
  ⟨0, "alice", [], 0, 0, .mintMsg [⟨"A", none⟩]⟩,
  ⟨0, "alice", [], 0, 0, .mintMsg [⟨"B", none⟩]⟩,
  ⟨1, "alice", [], 0, 0, .startSale none 10 (uusd 10) 1 (some 2) rcp⟩,
  ⟨2, "X", [uusd 10], 0, 10, .purchase (some 1)⟩,
  ⟨3, "alice", [], 0, 0, .endSale false⟩,
  ⟨4, "X", [uusd 10], 0, 10, .purchase (some 1)⟩]

/-- The chain state reached by `callsC5` (checked against `runCalls` below):
amount_sold = 2 but amount_transferred = 1, with 20uusd of proceeds pending and
the buyer's ledger entry never drained. -/
def cC5 : Chain :=
  { storage :=
      { owner := "alice"
        config := ⟨"cw721", true⟩
        sale_conducted := true
        number_of_tokens_available := 0
        state := some
          { end_time := 10
            price := ⟨"uusd", 10⟩
            min_tokens_sold := 1
            max_amount_per_wallet := 2
            amount_sold := 2
            amount_to_send := 20
            amount_transferred := 1
            recipient := ⟨"r", false⟩ }
        available_tokens := []
        purchases := [("X", [⟨"A", 0, "X"⟩, ⟨"B", 0, "X"⟩])] }
    cw := [("A", "X"), ("B", "crowdfund")]
    now := 4 }

/-- Trace for C8: one token sold to X, then two EndSale calls after expiry; the
second forwards the proceeds, finds nothing to burn and clears SaleState. -/
def callsC8 : List Call := [
  ⟨0, "alice", [], 0, 0, .mintMsg [⟨"A", none⟩]⟩,
  ⟨1, "alice", [], 0, 0, .startSale none 10 (uusd 10) 1 (some 1) rcp⟩,
  ⟨2, "X", [uusd 10], 0, 10, .purchase (some 1)⟩,
  ⟨11, "bob", [], 0, 0, .endSale false⟩,
  ⟨12, "bob", [], 0, 0, .endSale false⟩]

/-- Trace for C9/C10: a completed first sale (cap 2, X bought 2, settlement
cleared SaleState without draining the ledger), a fresh token minted, and a
second sale opened with the default cap of 1. -/
def callsC9 : List Call := [
  ⟨0, "alice", [], 0, 0, .mintMsg [⟨"A", none⟩]⟩,
  ⟨0, "alice", [], 0, 0, .mintMsg [⟨"B", none⟩]⟩,
  ⟨1, "alice", [], 0, 0, .startSale none 10 (uusd 10) 1 (some 2) rcp⟩,
  ⟨2, "X", [uusd 20], 0, 10, .purchase (some 2)⟩,
  ⟨11, "bob", [], 0, 0, .endSale false⟩,
  ⟨12, "bob", [], 0, 0, .endSale false⟩,
  ⟨15, "alice", [], 0, 0, .mintMsg [⟨"C", none⟩]⟩,
  ⟨20, "alice", [], 0, 0, .startSale none 30 (uusd 10) 1 none rcp⟩]

/-- Trace for C6: two tokens minted, a sale that ends with nothing sold, and one
EndSale call whose burn batch removes both registry entries without touching
the counter. -/
def callsC6 : List Call := [
  ⟨0, "alice", [], 0, 0, .mintMsg [⟨"a", none⟩]⟩,
  ⟨0, "alice", [], 0, 0, .mintMsg [⟨"b", none⟩]⟩,
  ⟨1, "alice", [], 0, 0, .startSale none 10 (uusd 10) 5 (some 1) rcp⟩,
  ⟨11, "bob", [], 0, 0, .endSale false⟩]

/-- Trace for C7: a sale with no purchases, fully settled across two EndSale
calls (burn the one token, then clear), leaving SaleState absent and both the
ledger and the registry empty. -/
def callsC7 : List Call := [
  ⟨0, "alice", [], 0, 0, .mintMsg [⟨"a", none⟩]⟩,
  ⟨1, "alice", [], 0, 0, .startSale none 10 (uusd 10) 0 (some 1) rcp⟩,
  ⟨11, "bob", [], 0, 0, .endSale false⟩,
  ⟨12, "bob", [], 0, 0, .endSale false⟩]

/-- Trace for C4: one token for sale at 10uusd with no tax, ready for a
purchase paid with mixed-denomination funds. -/
def callsC4 : List Call := [
  ⟨0, "alice", [], 0, 0, .mintMsg [⟨"A", none⟩]⟩,
  ⟨1, "alice", [], 0, 0, .startSale none 10 (uusd 10) 1 (some 1) rcp⟩]

/-- A funds-forwarding command (direct or AMP) to the sale recipient. -/
def isFundsForward : OutMsg → Bool
  | .sendToRecipient _ _ _ => true
  | _ => false

/-- The registry-count invariant of the spec: the stored counter equals the
number of entries in the AVAILABLE_TOKENS registry. -/
def counterSync (s : Storage) : Prop :=
  s.number_of_tokens_available = s.available_tokens.length

/-- A concrete open-sale storage used by the witnesses: one token "A" at
10uusd, wallet cap 1, no purchases yet. -/
def storW : Storage :=
  { owner := "alice"
    config := ⟨"cw721", true⟩
    sale_conducted := true
    number_of_tokens_available := 1
    state := some
      { end_time := 10
        price := ⟨"uusd", 10⟩
        min_tokens_sold := 1
        max_amount_per_wallet := 1
        amount_sold := 0
        amount_to_send := 0
        amount_transferred := 0
        recipient := ⟨"r", false⟩ }
    available_tokens := ["A"]
    purchases := [] }

/-- The storage produced by minting token "A" to the engine on a fresh
instance, used by the C6 witness. -/
def storMintW : Storage :=
  { owner := "alice"
    config := ⟨"cw721", true⟩
    sale_conducted := false
    number_of_tokens_available := 1
    state := none
    available_tokens := ["A"]
    purchases := [] }

/-- C1 (exactly-once delivery): refuted on the code. Along the committed trace
`callsC5` the engine emits exactly one transfer command for token "A"
(the owner-triggered settlement batch), yet because that batch is never removed
from the Purchase Ledger, the very next EndSale call succeeds at the contract
level and emits a second outbound TransferNft command for "A" (together with
one for "B"), so the identifier "A" appears in two outbound transfer commands
across calls. -/
theorem c1_duplicate_transfer_command :
    (runCalls chain0 callsC5).map Prod.fst = some cC5 ∧
    (runCalls chain0 callsC5).map
      (fun x => x.2.flatten.count (OutMsg.transferNft "cw721" "X" "A")) = some 1 ∧
    (execMsg cC5 ⟨5, "bob", [], 0, 0, .endSale false⟩).toOption.map Prod.snd =
      some [OutMsg.transferNft "cw721" "X" "A", OutMsg.transferNft "cw721" "X" "B"] := by
  decide

/-- C2 (refund path at sale end): refuted on the code. Along `callsC2` the sale
ends with amount_sold = 1 strictly below min_tokens_sold = 2, yet the EndSale
call runs the settlement path: its response is a TransferNft command delivering
the sold token to the buyer, no refund BankMsg is ever emitted, and the buyer's
ledger entry survives. The refund branch (`issue_refunds_and_burn_tokens`) is
never invoked by `execute_end_sale`. -/
theorem c2_endsale_takes_settlement_not_refund :
    (runCalls chain0 callsC2).map
      (fun x => (x.1.storage.state.map (fun st => (st.amount_sold, st.min_tokens_sold)),
                 x.1.storage.purchases.length,
                 x.2.getLastD [])) =
      some (some (1, 2), 1, [OutMsg.transferNft "cw721" "X" "A"]) ∧
    (runCalls chain0 callsC2).map
      (fun x => x.2.flatten.any (fun m => match m with
        | .bankSend _ _ => true
        | _ => false)) = some false := by
  decide

/-- C4 counterexample (surplus refund): the claim that any funds beyond the
final required payment are returned fails at a concrete input. After the
committed trace `callsC4`, buyer X purchases the one token sending
[10uusd, 5uluna]; the required payment is 10uusd, so 5uluna remain beyond it,
yet the call succeeds with an empty response: no bank transfer returns the
surplus (the refund is guarded by a check for at least 1uusd remaining). -/
theorem c4_surplus_not_refunded_cx :
    (runCalls chain0 callsC4).map
      (fun x => execMsg x.1 ⟨2, "X", [uusd 10, ⟨"uluna", 5⟩], 0, 10, .purchase (some 1)⟩)
      = some (.ok ({ owner := "alice"
                     config := ⟨"cw721", true⟩
                     sale_conducted := true
                     number_of_tokens_available := 0
                     state := some
                       { end_time := 10
                         price := ⟨"uusd", 10⟩
                         min_tokens_sold := 1
                         max_amount_per_wallet := 1
                         amount_sold := 1
                         amount_to_send := 10
                         amount_transferred := 0
                         recipient := ⟨"r", false⟩ }
                     available_tokens := []
                     purchases := [("X", [⟨"A", 0, "X"⟩])] }, [])) ∧
    deductFunds [uusd 10, ⟨"uluna", 5⟩] (uusd 10) =
      .ok [⟨"uusd", 0⟩, ⟨"uluna", 5⟩] := by
  decide

/-- C6 counterexample (registry count invariant): after the committed trace
`callsC6` — whose final EndSale issues a burn batch that removes both registry
entries but does not clear state — the stored NUMBER_OF_TOKENS_AVAILABLE is
still 2 while AVAILABLE_TOKENS holds 0 entries. -/
theorem c6_counter_desync_cx :
    (runCalls chain0 callsC6).map
      (fun x => (x.1.storage.number_of_tokens_available,
                 x.1.storage.available_tokens,
                 x.1.storage.state.isSome)) = some (2, [], true) := by
  decide

/-- C7 counterexample (idempotent drain): after the committed trace `callsC7`
settlement is fully complete — SaleState cleared, Purchase Ledger and Token
Registry both empty — yet a further EndSale call is not a successful no-op: it
fails with the not-found error from loading the absent STATE item. -/
theorem c7_endsale_after_completion_errors_cx :
    (runCalls chain0 callsC7).map
      (fun x => (x.1.storage.state.isSome,
                 x.1.storage.purchases.length,
                 x.1.storage.available_tokens.length)) = some (false, 0, 0) ∧
    (runCalls chain0 callsC7).map
      (fun x => execMsg x.1 ⟨13, "bob", [], 0, 0, .endSale false⟩) =
      some (.error .stdNotFound) := by
  decide

/-- C8 (clear condition): refuted on the code. Along the committed trace
`callsC8`, the second EndSale call clears SaleState (its burn batch is empty)
even though the Purchase Ledger still holds buyer X's entry — the transfer
branch never drains PURCHASES. -/
theorem c8_cleared_with_nonempty_ledger :
    (runCalls chain0 callsC8).map
      (fun x => (x.1.storage.state.isSome, x.1.storage.purchases)) =
      some (false, [("X", [⟨"A", 0, "X"⟩])]) := by
  decide

/-- C9 (wallet cap): refuted on the code. Along the committed trace `callsC9`
the first sale (cap 2) is settled in a way that clears SaleState without
draining the ledger; after a second sale opens with the default cap of 1, the
chain is in a reachable state with the sale active (block time 20, end time 30)
in which buyer X's ledger holds 2 recorded purchases, exceeding the sale's
max_amount_per_wallet of 1. -/
theorem c9_ledger_exceeds_wallet_cap :
    (runCalls chain0 callsC9).map
      (fun x => ((x.1.storage.state.map
                    (fun st => (st.max_amount_per_wallet, st.end_time))),
                 x.1.now,
                 ((mapGet "X" x.1.storage.purchases).getD []).length)) =
      some (some (1, 30), 20, 2) := by
  decide

/-- A call whose execution fails commits nothing. -/
lemma stepChain_none_of_err {c : Chain} {call : Call}
    (h : ∃ e, execMsg c call = .error e) : stepChain c call = none := by
  obtain ⟨e, he⟩ := h
  unfold stepChain
  split_ifs with ht
  · rw [he]
  · rfl

/-- A call whose outbound commands fail commits nothing. -/
lemma stepChain_none_of_apply_fail {c : Chain} {call : Call} (s : Storage)
    (resp : Response) (h : execMsg c call = .ok (s, resp))
    (h2 : applyMsgs c.cw resp = none) : stepChain c call = none := by
  unfold stepChain
  split_ifs with ht
  · rw [h]
    dsimp only
    rw [h2]
  · rfl

/-- While a sale record exists, every mint call fails. -/
lemma execute_mint_err (env : EnvT) (info : Info) (storage : Storage)
    (msgs : List CrowdfundMintMsg) (h : storage.state.isSome = true) :
    ∃ e, execute_mint env info storage msgs = .error e := by
  rcases info with ⟨sender, funds⟩
  rcases funds with _ | ⟨c0, cr⟩ <;>
    simp only [execute_mint, nonpayable, bind, Except.bind, reduceCtorEq, if_true,
      if_false, h] <;>
    first
    | exact ⟨_, rfl⟩
    | (split_ifs <;> exact ⟨_, rfl⟩)

/-- While a sale record exists, every start-sale call fails. -/
lemma execute_start_sale_err (env : EnvT) (info : Info) (storage : Storage)
    (s : Option Nat) (e : Nat) (p : Coin) (m : Nat) (w : Option Nat)
    (r : Recipient) (h : storage.state.isSome = true) :
    ∃ er, execute_start_sale env info storage s e p m w r = .error er := by
  rcases info with ⟨sender, funds⟩
  rcases s with _ | sv <;> rcases funds with _ | ⟨c0, cr⟩ <;>
    simp only [execute_start_sale, nonpayable, bind, Except.bind, reduceCtorEq,
      if_true, if_false, h] <;>
    first
    | exact ⟨_, rfl⟩
    | (split_ifs <;> exact ⟨_, rfl⟩)

/-- With an empty registry and every stored ledger entry of the caller at or
over the cap, every quantity-form purchase fails. -/
lemma execute_purchase_err (t r : Nat) (env : EnvT) (info : Info)
    (storage : Storage) (st : SaleSt) (n : Option Nat)
    (h : storage.state = some st)
    (havail : storage.available_tokens = [])
    (hcap : ∀ l, mapGet info.sender storage.purchases = some l →
      st.max_amount_per_wallet ≤ l.length) :
    ∃ e, execute_purchase t r env info storage n = .error e := by
  simp only [execute_purchase, h]
  by_cases hexp : isExpired st.end_time env.blockTime
  · simp only [hexp, if_true]
    exact ⟨_, rfl⟩
  · simp only [hexp, if_false, Bool.false_eq_true]
    have htok : ∀ w, get_available_tokens storage none (some w) = [] := by
      intro w
      simp [get_available_tokens, havail]
    rcases hl : mapGet info.sender storage.purchases with _ | l
    · simp only [hl, Option.getD_none, List.length_nil]
      split_ifs <;>
        first
        | exact ⟨_, rfl⟩
        | (rw [htok]
           refine ⟨.allTokensPurchased, ?_⟩
           simp [purchase_tokens, bind, Except.bind])
    · have hlen := hcap l hl
      simp only [hl, Option.getD_some]
      split_ifs <;>
        first
        | exact ⟨_, rfl⟩
        | omega

/-- With an empty registry, every purchase-by-identifier fails. -/
lemma execute_purchase_by_token_id_err (t r : Nat) (env : EnvT) (info : Info)
    (storage : Storage) (st : SaleSt) (tok : String)
    (h : storage.state = some st)
    (havail : storage.available_tokens = []) :
    ∃ e, execute_purchase_by_token_id t r env info storage tok = .error e := by
  simp only [execute_purchase_by_token_id, h]
  by_cases hexp : isExpired st.end_time env.blockTime
  · simp only [hexp, if_true]
    exact ⟨_, rfl⟩
  · simp only [hexp, if_false, Bool.false_eq_true, havail, setHas]
    exact ⟨_, rfl⟩

/-- When the available counter is zero (and no funds are attached), EndSale
always proceeds to the settlement step. -/
lemma execute_end_sale_step (cw : List (String × String)) (env : EnvT)
    (info : Info) (storage : Storage) (b : Bool) (st : SaleSt)
    (h : storage.state = some st) (hn : storage.number_of_tokens_available = 0)
    (hf : info.funds = []) :
    execute_end_sale cw env info storage b =
      transfer_tokens_and_send_funds cw env info storage := by
  simp only [execute_end_sale, nonpayable, hf, bind, Except.bind, h, reduceCtorEq,
    if_true]
  split_ifs with hcond
  · rfl
  · exact absurd (Or.inr (Or.inr (Or.inl hn))) hcond

/-- Once the minimum sales threshold has been met, every refund claim fails. -/
lemma execute_claim_refund_err (env : EnvT) (info : Info) (storage : Storage)
    (st : SaleSt) (h : storage.state = some st)
    (hmin : st.min_tokens_sold ≤ st.amount_sold) :
    ∃ e, execute_claim_refund env info storage = .error e := by
  rcases info with ⟨sender, funds⟩
  rcases funds with _ | ⟨c0, cr⟩ <;>
    simp only [execute_claim_refund, nonpayable, bind, Except.bind, reduceCtorEq,
      if_true, if_false, h]
  · by_cases hexp : isExpired st.end_time env.blockTime
    · simp only [hexp, Bool.not_true, if_false, Bool.false_eq_true]
      have : ¬ st.amount_sold < st.min_tokens_sold := by omega
      simp only [this, if_true, not_false_eq_true]
      exact ⟨_, rfl⟩
    · simp only [hexp, Bool.not_false, if_true]
      exact ⟨_, rfl⟩
  · exact ⟨_, rfl⟩

/-- The terminal state of `callsC5`: no call of any kind can ever commit again,
because amount_transferred (1) can never again equal amount_sold (2) — the
re-emitted transfer batch always contains the already-delivered token "A",
which the token contract rejects. -/
lemma cC5_terminal (call : Call) : stepChain cC5 call = none := by
  obtain ⟨time, sender, funds, tax, rem, msg⟩ := call
  cases msg with
  | mintMsg msgs =>
    exact stepChain_none_of_err (execute_mint_err _ _ _ _ rfl)
  | startSale s e p m w r =>
    exact stepChain_none_of_err (execute_start_sale_err _ _ _ _ _ _ _ _ _ rfl)
  | purchase n =>
    refine stepChain_none_of_err ?_
    show ∃ e, execute_purchase tax rem ⟨time, CROWDFUND⟩ ⟨sender, funds⟩
      cC5.storage n = .error e
    refine execute_purchase_err tax rem ⟨time, CROWDFUND⟩ ⟨sender, funds⟩
      cC5.storage ⟨10, ⟨"uusd", 10⟩, 1, 2, 2, 20, 1, ⟨"r", false⟩⟩ n rfl rfl ?_
    intro l hl
    by_cases hs : sender = "X"
    · subst hs
      simp only [cC5, mapGet, if_pos rfl] at hl
      cases hl
      decide
    · simp only [cC5, mapGet, hs, if_false] at hl
      simp [hs] at hl
  | purchaseByTokenId tok =>
    refine stepChain_none_of_err ?_
    show ∃ e, execute_purchase_by_token_id tax rem ⟨time, CROWDFUND⟩
      ⟨sender, funds⟩ cC5.storage tok = .error e
    exact execute_purchase_by_token_id_err tax rem ⟨time, CROWDFUND⟩
      ⟨sender, funds⟩ cC5.storage
      ⟨10, ⟨"uusd", 10⟩, 1, 2, 2, 20, 1, ⟨"r", false⟩⟩ tok rfl rfl
  | claimRefund =>
    refine stepChain_none_of_err ?_
    show ∃ e, execute_claim_refund ⟨time, CROWDFUND⟩ ⟨sender, funds⟩
      cC5.storage = .error e
    exact execute_claim_refund_err ⟨time, CROWDFUND⟩ ⟨sender, funds⟩ cC5.storage
      ⟨10, ⟨"uusd", 10⟩, 1, 2, 2, 20, 1, ⟨"r", false⟩⟩ rfl (by decide)
  | endSale b =>
    rcases funds with _ | ⟨c0, cr⟩
    · refine stepChain_none_of_apply_fail { cC5.storage with
        state := some ⟨10, ⟨"uusd", 10⟩, 1, 2, 2, 20, 3, ⟨"r", false⟩⟩ }
        [.transferNft "cw721" "X" "A", .transferNft "cw721" "X" "B"] ?_ rfl
      show execute_end_sale cC5.cw ⟨time, CROWDFUND⟩ ⟨sender, []⟩ cC5.storage b = _
      rw [execute_end_sale_step cC5.cw ⟨time, CROWDFUND⟩ ⟨sender, []⟩ cC5.storage b
        ⟨10, ⟨"uusd", 10⟩, 1, 2, 2, 20, 1, ⟨"r", false⟩⟩ rfl rfl rfl]
      rfl
    · refine stepChain_none_of_err ⟨.payment, ?_⟩
      show execute_end_sale cC5.cw ⟨time, CROWDFUND⟩ ⟨sender, c0 :: cr⟩
        cC5.storage b = .error .payment
      simp [execute_end_sale, nonpayable, bind, Except.bind]

/-- C5 (proceeds forwarded exactly once): refuted on the code. The trace
`callsC5` commits and reaches `cC5`, a settlement-path state holding 20uusd of
accumulated net proceeds (amount_to_send = 20) none of which was forwarded in
the trace; and from `cC5` no call of any kind can ever commit again (every
purchase, mint, start-sale and refund call errors, and every further EndSale
call re-emits a transfer for the already-delivered token "A", which the token
contract rejects, reverting the call). Hence the accumulated proceeds are sent
to the recipient in zero calls — never exactly once. -/
theorem c5_proceeds_never_forwarded :
    (runCalls chain0 callsC5).map Prod.fst = some cC5 ∧
    (cC5.storage.state.map SaleSt.amount_to_send) = some 20 ∧
    (runCalls chain0 callsC5).map
      (fun x => x.2.flatten.any isFundsForward) = some false ∧
    ∀ call : Call, stepChain cC5 call = none := by
  exact ⟨by decide, by decide, by decide, cC5_terminal⟩

/-- C10 (cap subtraction is safe): refuted on the code. In the reachable state
after `callsC9`, buyer X's stored ledger length (2) exceeds the current sale's
max_amount_per_wallet (1), so the u32 subtraction in both purchase entry points
underflows: a quantity-form Purchase and a PurchaseByTokenId for the available
token "C" both abort with the arithmetic panic instead of any contract error. -/
theorem c10_cap_subtraction_underflows :
    (runCalls chain0 callsC9).map
      (fun x => (execMsg x.1 ⟨21, "X", [uusd 10], 0, 10, .purchase (some 1)⟩,
                 execMsg x.1 ⟨21, "X", [uusd 10], 0, 10, .purchaseByTokenId "C"⟩,
                 (x.1.storage.state.map (fun st => st.max_amount_per_wallet)),
                 ((mapGet "X" x.1.storage.purchases).getD []).length)) =
      some (.error .arithPanic, .error .arithPanic, some 1, 2) := by
  decide

/-- Covering an amount also covers any smaller amount of the same denomination. -/
lemma hasCoins_le {f : CoinList} {d : String} {a b : Nat} (hba : b ≤ a)
    (h : hasCoins f ⟨d, a⟩ = true) : hasCoins f ⟨d, b⟩ = true := by
  simp only [hasCoins, List.any_eq_true, decide_eq_true_eq] at h ⊢
  obtain ⟨c, hc, h1, h2⟩ := h
  exact ⟨c, hc, h1, le_trans hba h2⟩

/-- A successful deduction implies the corresponding coverage check. -/
lemma hasCoins_of_deduct {f : CoinList} {c : Coin} {l : CoinList}
    (h : deductFunds f c = .ok l) : hasCoins f c = true := by
  induction f generalizing l with
  | nil => simp [deductFunds] at h
  | cons f0 rest ih =>
    by_cases h1 : f0.denom = c.denom
    · by_cases h2 : c.amount ≤ f0.amount
      · simp only [hasCoins, List.any_cons, Bool.or_eq_true, decide_eq_true_eq]
        exact Or.inl ⟨h1, h2⟩
      · rw [show deductFunds (f0 :: rest) c = .error .insufficientFunds by
          simp [deductFunds, h1, h2]] at h
        simp at h
    · have hrest : ∃ rest2, deductFunds rest c = .ok rest2 := by
        simp only [deductFunds, h1, if_false] at h
        rcases hr : deductFunds rest c with e | rest2
        · rw [hr] at h
          simp [bind, Except.bind] at h
        · exact ⟨rest2, rfl⟩
      obtain ⟨rest2, hr⟩ := hrest
      simp only [hasCoins, List.any_cons, Bool.or_eq_true]
      exact Or.inr (ih hr)

/-- Looking up a key just inserted returns the inserted value. -/
lemma mapGet_mapInsert {α : Type} (k : String) (v : α) (l : List (String × α)) :
    mapGet k (mapInsert k v l) = some v := by
  induction l with
  | nil => simp [mapGet, mapInsert]
  | cons p rest ih =>
    obtain ⟨k2, v2⟩ := p
    by_cases h : k = k2
    · simp [mapGet, mapInsert, h]
    · by_cases h2 : strLt k k2 = true
      · simp [mapGet, mapInsert, h, h2]
      · simp [mapGet, mapInsert, h, h2, ih]

/-- Removing a prefix of the registry, element by element and in order, leaves
exactly the corresponding suffix. -/
lemma foldl_setRemove_take : ∀ (w : Nat) (l : List String),
    (l.take w).foldl (fun a x => setRemove x a) l = l.drop w
  | 0, l => by simp
  | w + 1, [] => by simp
  | w + 1, x :: xs => by
    simp only [List.take_succ_cons, List.foldl_cons, List.drop_succ_cons]
    rw [show setRemove x (x :: xs) = xs by simp [setRemove]]
    exact foldl_setRemove_take w xs

/-- Inserting a fresh key grows the registry by one entry. -/
lemma setInsert_length_of_fresh {k : String} : ∀ {l : List String},
    setHas k l = false → (setInsert k l).length = l.length + 1 := by
  intro l
  induction l with
  | nil =>
    intro h
    simp [setInsert]
  | cons x xs ih =>
    intro h
    simp only [setHas, decide_eq_false_iff_not, not_or, Bool.not_eq_true] at h
    obtain ⟨h1, h2⟩ := h
    simp only [setInsert]
    rw [if_neg h1]
    split_ifs with h3
    · simp
    · simp only [List.length_cons, ih h2]

/-- One unfolding step of the explicit loop result. -/
lemma purchaseLoopSpec_cons (t r : Nat) (s : String) (x : String)
    (ids : List String) (storage : Storage) (st : SaleSt) (ps : List Purchase)
    (totalTax cur : Nat) :
    purchaseLoopSpec t r s (x :: ids) storage st ps totalTax cur =
      purchaseLoopSpec t r s ids
        { storage with available_tokens := setRemove x storage.available_tokens }
        { st with amount_to_send := st.amount_to_send + r,
                  amount_sold := st.amount_sold + 1 }
        (ps ++ [⟨x, t, s⟩]) (totalTax + t) (cur - 1) := by
  obtain ⟨so, sc, scond, sn, sst, sav, sp⟩ := storage
  obtain ⟨et, pr, mts, maw, aso, ats, atr, rc⟩ := st
  simp [purchaseLoopSpec, List.foldl_cons, List.length_cons, List.map_cons,
    Nat.mul_succ, Prod.mk.injEq, Storage.mk.injEq, SaleSt.mk.injEq,
    List.append_assoc, List.cons_append, List.nil_append]
  all_goals omega

/-- One successful step of the purchase loop under the step-local bounds. -/
lemma purchaseLoop_cons_step (t r : Nat) (s x : String) (ids : List String)
    (storage : Storage) (st : SaleSt) (ps : List Purchase) (totalTax cur : Nat)
    (hc1 : totalTax + t < U128LIM) (hc2 : st.amount_to_send + r < U128LIM)
    (hc3 : st.amount_sold + 1 < U128LIM) (hc4 : 1 ≤ cur) :
    purchaseLoop t r s (x :: ids) storage st ps totalTax cur =
      purchaseLoop t r s ids
        { storage with available_tokens := setRemove x storage.available_tokens }
        { st with amount_to_send := st.amount_to_send + r,
                  amount_sold := st.amount_sold + 1 }
        (ps ++ [⟨x, t, s⟩]) (totalTax + t) (cur - 1) := by
  simp only [purchaseLoop, bind, Except.bind, checkedAdd, checkedSub]
  rw [if_pos hc1]
  dsimp only
  rw [if_pos hc2]
  dsimp only
  rw [if_pos hc3]
  dsimp only
  rw [if_pos hc4]

/-- Inversion for the purchase loop: a successful run computes exactly the
explicit result, and could not have run out of registry counter. -/
lemma purchaseLoop_ok_eq (t r : Nat) (s : String) :
    ∀ (ids : List String) (storage : Storage) (st : SaleSt) (ps : List Purchase)
      (totalTax cur : Nat) (out : Storage × SaleSt × List Purchase × Nat × Nat),
    purchaseLoop t r s ids storage st ps totalTax cur = .ok out →
    ids.length ≤ cur ∧ out = purchaseLoopSpec t r s ids storage st ps totalTax cur := by
  intro ids
  induction ids with
  | nil =>
    intro storage st ps totalTax cur out h
    simp only [purchaseLoop, Except.ok.injEq] at h
    subst h
    refine ⟨Nat.zero_le _, ?_⟩
    obtain ⟨so, sc, scond, sn, sst, sav, sp⟩ := storage
    obtain ⟨et, pr, mts, maw, aso, ats, atr, rc⟩ := st
    simp [purchaseLoopSpec]
  | cons x ids ih =>
    intro storage st ps totalTax cur out h
    simp only [purchaseLoop, bind, Except.bind, checkedAdd, checkedSub] at h
    split_ifs at h with h1 h2 h3 h4
    obtain ⟨hlen, hout⟩ := ih _ _ _ _ _ _ h
    refine ⟨by simp only [List.length_cons]; omega, ?_⟩
    rw [hout, ← purchaseLoopSpec_cons]

/-- Forward evaluation of the purchase loop under the arithmetic bounds. -/
lemma purchaseLoop_eval (t r : Nat) (s : String) :
    ∀ (ids : List String) (storage : Storage) (st : SaleSt) (ps : List Purchase)
      (totalTax cur : Nat),
    ids.length ≤ cur →
    totalTax + t * ids.length < U128LIM →
    st.amount_to_send + r * ids.length < U128LIM →
    st.amount_sold + ids.length < U128LIM →
    purchaseLoop t r s ids storage st ps totalTax cur =
      .ok (purchaseLoopSpec t r s ids storage st ps totalTax cur) := by
  intro ids
  induction ids with
  | nil =>
    intro storage st ps totalTax cur hc h1 h2 h3
    simp only [purchaseLoop, Except.ok.injEq]
    obtain ⟨so, sc, scond, sn, sst, sav, sp⟩ := storage
    obtain ⟨et, pr, mts, maw, aso, ats, atr, rc⟩ := st
    simp [purchaseLoopSpec]
  | cons x ids ih =>
    intro storage st ps totalTax cur hc h1 h2 h3
    simp only [List.length_cons, Nat.mul_succ] at hc h1 h2 h3
    rw [purchaseLoop_cons_step t r s x ids storage st ps totalTax cur
      (by omega) (by omega) (by omega) (by omega)]
    rw [ih _ _ _ _ _ (by omega) (by omega) (by simp only []; omega)
      (by simp only []; omega)]
    rw [← purchaseLoopSpec_cons]

/-- Forward evaluation of `purchase_tokens` when the funds cover the full
required payment and the arithmetic stays within Uint128 range. -/
lemma purchase_tokens_eval (t r : Nat) (storage : Storage) (ids : List String)
    (info : Info) (st : SaleSt) (ps : List Purchase)
    (hne : ids ≠ [])
    (hcnt : ids.length ≤ storage.number_of_tokens_available)
    (hmul : st.price.amount * ids.length + t * ids.length < U128LIM)
    (hsend : st.amount_to_send + r * ids.length < U128LIM)
    (hsold : st.amount_sold + ids.length < U128LIM)
    (hfull : hasCoins info.funds
      ⟨st.price.denom, st.price.amount * ids.length + t * ids.length⟩ = true) :
    purchase_tokens t r storage ids info st ps =
      .ok ({ storage with
              available_tokens :=
                ids.foldl (fun a x => setRemove x a) storage.available_tokens,
              number_of_tokens_available :=
                storage.number_of_tokens_available - ids.length },
           { st with amount_to_send := st.amount_to_send + r * ids.length,
                     amount_sold := st.amount_sold + ids.length },
           ps ++ ids.map (fun x => (⟨x, t, info.sender⟩ : Purchase)),
           ⟨st.price.denom, st.price.amount * ids.length + t * ids.length⟩) := by
  have hbase : hasCoins info.funds
      ⟨st.price.denom, st.price.amount * ids.length⟩ = true :=
    hasCoins_le (Nat.le_add_right _ _) hfull
  have hne2 : ids.isEmpty = false := by
    cases ids
    · exact absurd rfl hne
    · rfl
  have hm1 : st.price.amount * ids.length < U128LIM := by omega
  simp only [purchase_tokens, bind, Except.bind, mulPan, hne2, Bool.false_eq_true,
    if_false]
  rw [if_pos hm1]
  dsimp only
  rw [if_neg (not_not_intro hbase)]
  rw [purchaseLoop_eval t r info.sender ids storage st ps 0
    storage.number_of_tokens_available hcnt (by omega) hsend hsold]
  dsimp only [purchaseLoopSpec]
  simp only [checkedMul, checkedAdd]
  rw [if_pos hm1]
  dsimp only
  rw [if_pos (show st.price.amount * ids.length + (0 + t * ids.length) < U128LIM by
    omega)]
  dsimp only
  rw [if_neg (not_not_intro (show hasCoins info.funds
    ⟨st.price.denom, st.price.amount * ids.length + (0 + t * ids.length)⟩ = true by
      simpa using hfull))]
  simp only [Nat.zero_add]

/-- Inversion for `purchase_tokens`: a success removes exactly the given tokens
from the registry, decrements the counter by their number, appends one purchase
record per token, computes the required payment as price plus tax per token, and
could only have passed both funds checks. -/
lemma purchase_tokens_ok {t r : Nat} {storage : Storage} {ids : List String}
    {info : Info} {st : SaleSt} {ps : List Purchase}
    {s2 : Storage} {st2 : SaleSt} {ps2 : List Purchase} {req : Coin}
    (h : purchase_tokens t r storage ids info st ps = .ok (s2, st2, ps2, req)) :
    ids ≠ [] ∧ ids.length ≤ storage.number_of_tokens_available ∧
    s2 = { storage with
            available_tokens :=
              ids.foldl (fun a x => setRemove x a) storage.available_tokens,
            number_of_tokens_available :=
              storage.number_of_tokens_available - ids.length } ∧
    st2 = { st with amount_to_send := st.amount_to_send + r * ids.length,
                    amount_sold := st.amount_sold + ids.length } ∧
    ps2 = ps ++ ids.map (fun x => (⟨x, t, info.sender⟩ : Purchase)) ∧
    req = ⟨st.price.denom, st.price.amount * ids.length + t * ids.length⟩ ∧
    hasCoins info.funds ⟨st.price.denom, st.price.amount * ids.length⟩ = true ∧
    hasCoins info.funds req = true := by
  have hne : ids ≠ [] := by
    intro he
    subst he
    simp [purchase_tokens] at h
  have hne2 : ids.isEmpty = false := by
    cases ids
    · exact absurd rfl hne
    · rfl
  simp only [purchase_tokens, bind, Except.bind, mulPan, hne2, Bool.false_eq_true,
    if_false] at h
  by_cases hm1 : st.price.amount * ids.length < U128LIM
  case neg =>
    rw [if_neg hm1] at h
    simp at h
  rw [if_pos hm1] at h
  dsimp only at h
  by_cases hb : hasCoins info.funds
      ⟨st.price.denom, st.price.amount * ids.length⟩ = true
  case neg =>
    rw [if_pos hb] at h
    simp at h
  rw [if_neg (not_not_intro hb)] at h
  rcases hloop : purchaseLoop t r info.sender ids storage st ps 0
      storage.number_of_tokens_available with e | out
  · rw [hloop] at h
    simp at h
  · rw [hloop] at h
    obtain ⟨hlen, hspec⟩ := purchaseLoop_ok_eq t r info.sender ids _ _ _ _ _ _ hloop
    subst hspec
    dsimp only [purchaseLoopSpec] at h
    simp only [checkedMul, checkedAdd] at h
    by_cases hm2 : st.price.amount * ids.length + (0 + t * ids.length) < U128LIM
    case neg =>
      rw [if_pos hm1] at h
      dsimp only at h
      rw [if_neg hm2] at h
      simp at h
    rw [if_pos hm1] at h
    dsimp only at h
    rw [if_pos hm2] at h
    dsimp only at h
    by_cases hc2 : hasCoins info.funds
        ⟨st.price.denom, st.price.amount * ids.length + (0 + t * ids.length)⟩ = true
    case neg =>
      rw [if_pos hc2] at h
      simp at h
    rw [if_neg (not_not_intro hc2)] at h
    simp only [Except.ok.injEq, Prod.mk.injEq] at h
    obtain ⟨hs, hst, hps, hreq⟩ := h
    refine ⟨hne, hlen, hs.symm, ?_, hps.symm, ?_, hb, ?_⟩
    · rw [← hst]
    · rw [← hreq]
      simp only [Nat.zero_add]
    · rw [← hreq]
      exact hc2

/-- Lemma: `purchase_tokens` fails with InsufficientFunds when the funds do not cover
even the pre-tax cost. -/
lemma purchase_tokens_fail_base (t r : Nat) (storage : Storage)
    (ids : List String) (info : Info) (st : SaleSt) (ps : List Purchase)
    (hne : ids ≠ [])
    (hm1 : st.price.amount * ids.length < U128LIM)
    (hbase : hasCoins info.funds
      ⟨st.price.denom, st.price.amount * ids.length⟩ = false) :
    purchase_tokens t r storage ids info st ps = .error .insufficientFunds := by
  have hne2 : ids.isEmpty = false := by
    cases ids
    · exact absurd rfl hne
    · rfl
  simp only [purchase_tokens, bind, Except.bind, mulPan, hne2, Bool.false_eq_true,
    if_false]
  rw [if_pos hm1]
  dsimp only
  rw [if_pos (by simp [hbase])]

/-- Lemma: `purchase_tokens` fails with InsufficientFunds when the funds cover the
pre-tax cost but not the tax-inclusive required payment. -/
lemma purchase_tokens_fail_tax (t r : Nat) (storage : Storage)
    (ids : List String) (info : Info) (st : SaleSt) (ps : List Purchase)
    (hne : ids ≠ [])
    (hcnt : ids.length ≤ storage.number_of_tokens_available)
    (hmul : st.price.amount * ids.length + t * ids.length < U128LIM)
    (hsend : st.amount_to_send + r * ids.length < U128LIM)
    (hsold : st.amount_sold + ids.length < U128LIM)
    (hbase : hasCoins info.funds
      ⟨st.price.denom, st.price.amount * ids.length⟩ = true)
    (hfull : hasCoins info.funds
      ⟨st.price.denom, st.price.amount * ids.length + t * ids.length⟩ = false) :
    purchase_tokens t r storage ids info st ps = .error .insufficientFunds := by
  have hne2 : ids.isEmpty = false := by
    cases ids
    · exact absurd rfl hne
    · rfl
  have hm1 : st.price.amount * ids.length < U128LIM := by omega
  simp only [purchase_tokens, bind, Except.bind, mulPan, hne2, Bool.false_eq_true,
    if_false]
  rw [if_pos hm1]
  dsimp only
  rw [if_neg (not_not_intro hbase)]
  rw [purchaseLoop_eval t r info.sender ids storage st ps 0
    storage.number_of_tokens_available hcnt (by omega) hsend hsold]
  dsimp only [purchaseLoopSpec]
  simp only [checkedMul, checkedAdd]
  rw [if_pos hm1]
  dsimp only
  rw [if_pos (show st.price.amount * ids.length + (0 + t * ids.length) < U128LIM by
    omega)]
  dsimp only
  rw [if_pos (show ¬ hasCoins info.funds
    ⟨st.price.denom, st.price.amount * ids.length + (0 + t * ids.length)⟩ = true by
      simp only [Nat.zero_add]
      simp [hfull])]

/-- Inversion for a successful quantity-form purchase call: some prefix of the
registry was bought, the counter dropped by its size, exactly that prefix left
the registry, the buyer's ledger grew by one record per token, and both funds
checks passed. -/
lemma execute_purchase_ok_inv {t r : Nat} {env : EnvT} {info : Info}
    {storage : Storage} {n : Option Nat} {s2 : Storage} {resp : Response}
    (h : execute_purchase t r env info storage n = .ok (s2, resp)) :
    ∃ (st : SaleSt) (w : Nat) (ids : List String),
      storage.state = some st ∧
      ids = storage.available_tokens.take w ∧
      ids ≠ [] ∧
      ids.length ≤ storage.number_of_tokens_available ∧
      s2.number_of_tokens_available =
        storage.number_of_tokens_available - ids.length ∧
      s2.available_tokens = storage.available_tokens.drop w ∧
      mapGet info.sender s2.purchases =
        some (((mapGet info.sender storage.purchases).getD []) ++
          ids.map (fun x => (⟨x, t, info.sender⟩ : Purchase))) ∧
      hasCoins info.funds ⟨st.price.denom, st.price.amount * ids.length⟩ = true ∧
      hasCoins info.funds
        ⟨st.price.denom, st.price.amount * ids.length + t * ids.length⟩ = true := by
  rcases hst : storage.state with _ | st
  · simp only [execute_purchase, hst] at h
    exact Except.noConfusion h
  · simp only [execute_purchase, hst] at h
    by_cases hexp : isExpired st.end_time env.blockTime = true
    · rw [if_pos hexp] at h
      simp at h
    rw [if_neg hexp] at h
    by_cases hpan : st.max_amount_per_wallet <
        ((mapGet info.sender storage.purchases).getD []).length
    · rw [if_pos hpan] at h
      simp at h
    rw [if_neg hpan] at h
    by_cases hcap : 0 < st.max_amount_per_wallet -
        ((mapGet info.sender storage.purchases).getD []).length
    case neg =>
      rw [if_pos hcap] at h
      simp at h
    rw [if_neg (not_not_intro hcap)] at h
    generalize hw : n.elim (st.max_amount_per_wallet -
        ((mapGet info.sender storage.purchases).getD []).length)
      (fun k => min k (st.max_amount_per_wallet -
        ((mapGet info.sender storage.purchases).getD []).length)) = w at h
    rcases hpt : purchase_tokens t r storage
        (get_available_tokens storage none (some w))
        info st ((mapGet info.sender storage.purchases).getD [])
        with e | out
    · rw [hpt] at h
      simp [bind, Except.bind] at h
    · obtain ⟨s3, st3, ps3, req⟩ := out
      rw [hpt] at h
      simp only [bind, Except.bind] at h
      obtain ⟨hne, hcnt, hs3, hst3, hps3, hreq, hbase, hfull⟩ :=
        purchase_tokens_ok hpt
      rcases hd : deductFunds info.funds req with e | lf
      · rw [hd] at h
        simp [bind, Except.bind] at h
      · rw [hd] at h
        simp only [bind, Except.bind] at h
        simp only [Except.ok.injEq, Prod.mk.injEq] at h
        obtain ⟨hs2, _⟩ := h
        refine ⟨st, w, _,
          rfl, by simp [get_available_tokens], hne, hcnt, ?_, ?_, ?_, ?_, ?_⟩
        · rw [← hs2, hs3]
        · rw [← hs2, hs3]
          simp only [get_available_tokens, Option.getD_some]
          rw [show (storage.available_tokens.take w).foldl
              (fun a x => setRemove x a) storage.available_tokens =
              storage.available_tokens.drop w from foldl_setRemove_take w _]
        · rw [← hs2]
          dsimp only
          rw [mapGet_mapInsert, hps3]
        · exact hbase
        · rw [hreq] at hfull
          exact hfull

/-- C3 (purchase funds check): confirmed. (1) Whenever a quantity-form Purchase
call succeeds having obtained k tokens (the buyer's ledger grew by k records),
the sent funds covered `unit price × k` before tax and `unit price × k + tax × k`
after tax. (2) Under an open unexpired sale, a buyer below the wallet cap, a
positive clamped count k within the counter and Uint128 bounds, if either funds
check fails, the call returns InsufficientFunds. (3) Any erroring Purchase call
leaves the persisted storage unchanged — the host discards everything (the
whole call aborts atomically). -/
theorem c3_purchase_funds_check :
    (∀ (t r : Nat) (env : EnvT) (info : Info) (storage : Storage) (n : Option Nat)
       (s2 : Storage) (resp : Response),
       execute_purchase t r env info storage n = .ok (s2, resp) →
       ∃ (st : SaleSt) (k : Nat), storage.state = some st ∧ 0 < k ∧
         ((mapGet info.sender s2.purchases).getD []).length =
           ((mapGet info.sender storage.purchases).getD []).length + k ∧
         hasCoins info.funds ⟨st.price.denom, st.price.amount * k⟩ = true ∧
         hasCoins info.funds
           ⟨st.price.denom, st.price.amount * k + t * k⟩ = true) ∧
    (∀ (t r : Nat) (env : EnvT) (info : Info) (storage : Storage) (st : SaleSt)
       (n k : Nat),
       storage.state = some st →
       isExpired st.end_time env.blockTime = false →
       ((mapGet info.sender storage.purchases).getD []).length <
         st.max_amount_per_wallet →
       k = min n (min (st.max_amount_per_wallet -
           ((mapGet info.sender storage.purchases).getD []).length)
         storage.available_tokens.length) →
       0 < k →
       k ≤ storage.number_of_tokens_available →
       st.price.amount * k + t * k < U128LIM →
       st.amount_to_send + r * k < U128LIM →
       st.amount_sold + k < U128LIM →
       (hasCoins info.funds ⟨st.price.denom, st.price.amount * k⟩ = false ∨
        hasCoins info.funds
          ⟨st.price.denom, st.price.amount * k + t * k⟩ = false) →
       execute_purchase t r env info storage (some n) = .error .insufficientFunds) ∧
    (∀ (t r : Nat) (env : EnvT) (info : Info) (storage : Storage) (n : Option Nat)
       (e : Err), execute_purchase t r env info storage n = .error e →
       applyExec storage (execute_purchase t r env info storage n) = storage) := by
  refine ⟨?_, ?_, ?_⟩
  · intro t r env info storage n s2 resp h
    obtain ⟨st, w, ids, hst, hids, hne, hcnt, hcounter, havail, hledger, hbase,
      hfull⟩ := execute_purchase_ok_inv h
    refine ⟨st, ids.length, hst, List.length_pos.mpr hne, ?_, hbase, hfull⟩
    rw [hledger]
    simp
  · intro t r env info storage st n k hst hexp hcap hk hkpos hkcnt hb1 hb2 hb3
      hdisj
    have hfull : hasCoins info.funds
        ⟨st.price.denom, st.price.amount * k + t * k⟩ = false := by
      rcases hdisj with hb | hf
      · by_cases hfc : hasCoins info.funds
            ⟨st.price.denom, st.price.amount * k + t * k⟩ = true
        · have := hasCoins_le (Nat.le_add_right _ _) hfc
          rw [hb] at this
          exact absurd this (by simp)
        · exact Bool.not_eq_true _ ▸ eq_false_of_ne_true hfc
      · exact hf
    have hlen0 : ((mapGet info.sender storage.purchases).getD []).length <
        st.max_amount_per_wallet := hcap
    simp only [execute_purchase, hst]
    rw [if_neg (by simp [hexp])]
    rw [if_neg (show ¬ st.max_amount_per_wallet <
      ((mapGet info.sender storage.purchases).getD []).length by omega)]
    rw [if_neg (not_not_intro (show 0 < st.max_amount_per_wallet -
      ((mapGet info.sender storage.purchases).getD []).length by omega))]
    dsimp only [Option.elim]
    have hids : get_available_tokens storage none
        (some (min n (st.max_amount_per_wallet -
          ((mapGet info.sender storage.purchases).getD []).length))) =
        storage.available_tokens.take (min n (st.max_amount_per_wallet -
          ((mapGet info.sender storage.purchases).getD []).length)) := by
      simp [get_available_tokens]
    rw [hids]
    have hlen : (storage.available_tokens.take (min n
        (st.max_amount_per_wallet -
          ((mapGet info.sender storage.purchases).getD []).length))).length = k := by
      rw [List.length_take]
      omega
    have hne : storage.available_tokens.take (min n
        (st.max_amount_per_wallet -
          ((mapGet info.sender storage.purchases).getD []).length)) ≠ [] := by
      intro he
      rw [he] at hlen
      simp at hlen
      omega
    by_cases hbase : hasCoins info.funds
        ⟨st.price.denom, st.price.amount * k⟩ = true
    · rw [purchase_tokens_fail_tax t r storage _ info st _ hne
        (by rw [hlen]; exact hkcnt) (by rw [hlen]; exact hb1)
        (by rw [hlen]; exact hb2) (by rw [hlen]; exact hb3)
        (by rw [hlen]; exact hbase) (by rw [hlen]; exact hfull)]
      rfl
    · have hbase2 : hasCoins info.funds
          ⟨st.price.denom, st.price.amount * k⟩ = false :=
        Bool.not_eq_true _ ▸ eq_false_of_ne_true hbase
      rw [purchase_tokens_fail_base t r storage _ info st _ hne
        (by rw [hlen]; omega) (by rw [hlen]; exact hbase2)]
      rfl
  · intro t r env info storage n e h
    rw [h]
    rfl

/-- C3 witness: a concrete insufficient-funds purchase (5uusd sent against a
10uusd price) fails with InsufficientFunds, by the theorem. -/
theorem c3_purchase_funds_check_witness :
    execute_purchase 0 10 ⟨5, "crowdfund"⟩ ⟨"X", [⟨"uusd", 5⟩]⟩ storW (some 1) =
      .error .insufficientFunds := by
  exact c3_purchase_funds_check.2.1 0 10 ⟨5, "crowdfund"⟩ ⟨"X", [⟨"uusd", 5⟩]⟩
    storW _ 1 1 rfl (by decide) (by decide) (by decide) (by decide) (by decide)
    (by decide) (by decide) (by decide) (Or.inl (by decide))

/-- C7 amended: once SaleState is absent (settlement fully completed and
cleared), a further EndSale call with no funds attached fails with the
not-found error from loading STATE, and the persisted storage is unchanged —
it is an erroring call, not a successful no-op. -/
theorem c7_endsale_after_completion_amended :
    ∀ (cw : List (String × String)) (env : EnvT) (info : Info)
      (storage : Storage) (b : Bool),
      storage.state = none → info.funds = [] →
      execute_end_sale cw env info storage b = .error .stdNotFound ∧
      applyExec storage (execute_end_sale cw env info storage b) = storage := by
  intro cw env info storage b h hf
  have he : execute_end_sale cw env info storage b = .error .stdNotFound := by
    simp [execute_end_sale, nonpayable, hf, h, bind, Except.bind]
  exact ⟨he, by rw [he]; rfl⟩

/-- C7 witness: on a freshly instantiated engine (no sale record), EndSale
errors with the not-found error and changes nothing, by the theorem. -/
theorem c7_endsale_after_completion_amended_witness :
    execute_end_sale [] ⟨5, "crowdfund"⟩ ⟨"bob", []⟩
      (instantiate "alice" "cw721" true) false = .error .stdNotFound ∧
    applyExec (instantiate "alice" "cw721" true)
      (execute_end_sale [] ⟨5, "crowdfund"⟩ ⟨"bob", []⟩
        (instantiate "alice" "cw721" true) false) =
      instantiate "alice" "cw721" true := by
  exact c7_endsale_after_completion_amended [] ⟨5, "crowdfund"⟩ ⟨"bob", []⟩
    (instantiate "alice" "cw721" true) false rfl rfl

/-- C4 amended (purchase clamping and surplus refund): for a quantity-form
Purchase of n tokens during an open sale by a buyer below the wallet cap, with
k = min(n, cap − already-purchased, tokens remaining): (1) if k = 0 the call
fails with AllTokensPurchased; (2) if k > 0, the arithmetic is in range and the
required payment (price × k + tax × k) deducts from the sent funds, the call
succeeds having recorded exactly k purchases, and the surplus left after the
deduction is returned to the buyer as one direct bank transfer exactly when at
least one unit of the price denomination remains — a surplus consisting only of
other denominations is not refunded. -/
theorem c4_clamp_and_surplus_refund :
    (∀ (t r : Nat) (env : EnvT) (info : Info) (storage : Storage) (st : SaleSt)
       (n : Nat),
       storage.state = some st →
       isExpired st.end_time env.blockTime = false →
       ((mapGet info.sender storage.purchases).getD []).length <
         st.max_amount_per_wallet →
       min n (min (st.max_amount_per_wallet -
           ((mapGet info.sender storage.purchases).getD []).length)
         storage.available_tokens.length) = 0 →
       execute_purchase t r env info storage (some n) =
         .error .allTokensPurchased) ∧
    (∀ (t r : Nat) (env : EnvT) (info : Info) (storage : Storage) (st : SaleSt)
       (n k : Nat) (leftover : CoinList),
       storage.state = some st →
       isExpired st.end_time env.blockTime = false →
       ((mapGet info.sender storage.purchases).getD []).length <
         st.max_amount_per_wallet →
       k = min n (min (st.max_amount_per_wallet -
           ((mapGet info.sender storage.purchases).getD []).length)
         storage.available_tokens.length) →
       0 < k →
       k ≤ storage.number_of_tokens_available →
       st.price.amount * k + t * k < U128LIM →
       st.amount_to_send + r * k < U128LIM →
       st.amount_sold + k < U128LIM →
       deductFunds info.funds ⟨st.price.denom, st.price.amount * k + t * k⟩ =
         .ok leftover →
       ∃ (s2 : Storage) (resp : Response),
         execute_purchase t r env info storage (some n) = .ok (s2, resp) ∧
         (hasCoins leftover ⟨st.price.denom, 1⟩ = true →
           resp = [.bankSend info.sender leftover]) ∧
         (hasCoins leftover ⟨st.price.denom, 1⟩ = false → resp = []) ∧
         ((mapGet info.sender s2.purchases).getD []).length =
           ((mapGet info.sender storage.purchases).getD []).length + k) := by
  constructor
  · intro t r env info storage st n hst hexp hcap hk
    simp only [execute_purchase, hst]
    rw [if_neg (by simp [hexp])]
    rw [if_neg (show ¬ st.max_amount_per_wallet <
      ((mapGet info.sender storage.purchases).getD []).length by omega)]
    rw [if_neg (not_not_intro (show 0 < st.max_amount_per_wallet -
      ((mapGet info.sender storage.purchases).getD []).length by omega))]
    dsimp only [Option.elim]
    have hids : get_available_tokens storage none
        (some (min n (st.max_amount_per_wallet -
          ((mapGet info.sender storage.purchases).getD []).length))) = [] := by
      apply List.eq_nil_of_length_eq_zero
      simp only [get_available_tokens, Option.getD_some, List.length_take]
      omega
    rw [hids]
    rw [show purchase_tokens t r storage [] info st
        ((mapGet info.sender storage.purchases).getD []) =
        .error .allTokensPurchased by simp [purchase_tokens]]
    rfl
  · intro t r env info storage st n k leftover hst hexp hcap hk hkpos hkcnt hb1
      hb2 hb3 hd
    have hfull : hasCoins info.funds
        ⟨st.price.denom, st.price.amount * k + t * k⟩ = true :=
      hasCoins_of_deduct hd
    simp only [execute_purchase, hst]
    rw [if_neg (by simp [hexp])]
    rw [if_neg (show ¬ st.max_amount_per_wallet <
      ((mapGet info.sender storage.purchases).getD []).length by omega)]
    rw [if_neg (not_not_intro (show 0 < st.max_amount_per_wallet -
      ((mapGet info.sender storage.purchases).getD []).length by omega))]
    dsimp only [Option.elim]
    have hids : get_available_tokens storage none
        (some (min n (st.max_amount_per_wallet -
          ((mapGet info.sender storage.purchases).getD []).length))) =
        storage.available_tokens.take (min n (st.max_amount_per_wallet -
          ((mapGet info.sender storage.purchases).getD []).length)) := by
      simp [get_available_tokens]
    rw [hids]
    have hlen : (storage.available_tokens.take (min n
        (st.max_amount_per_wallet -
          ((mapGet info.sender storage.purchases).getD []).length))).length = k := by
      rw [List.length_take]
      omega
    have hne : storage.available_tokens.take (min n
        (st.max_amount_per_wallet -
          ((mapGet info.sender storage.purchases).getD []).length)) ≠ [] := by
      intro he
      rw [he] at hlen
      simp at hlen
      omega
    rw [purchase_tokens_eval t r storage _ info st _ hne
      (by rw [hlen]; exact hkcnt) (by rw [hlen]; exact hb1)
      (by rw [hlen]; exact hb2) (by rw [hlen]; exact hb3)
      (by rw [hlen]; exact hfull)]
    simp only [bind, Except.bind]
    rw [hlen, hd]
    refine ⟨_, _, rfl, ?_, ?_, ?_⟩
    · intro hc
      simp [hc]
    · intro hc
      simp [hc]
    · rw [mapGet_mapInsert]
      simp only [Option.getD_some, List.length_append, List.length_map, hlen]

/-- C4 witness: at the concrete open sale (one token at 10uusd, no tax), a
purchase of one token paying 12uusd succeeds and refunds the 2uusd surplus as a
direct bank transfer, by the theorem. -/
theorem c4_clamp_and_surplus_refund_witness :
    ∃ (s2 : Storage) (resp : Response),
      execute_purchase 0 10 ⟨5, "crowdfund"⟩ ⟨"X", [⟨"uusd", 12⟩]⟩ storW
        (some 1) = .ok (s2, resp) ∧
      (hasCoins [⟨"uusd", 2⟩] ⟨"uusd", 1⟩ = true →
        resp = [.bankSend "X" [⟨"uusd", 2⟩]]) ∧
      (hasCoins [⟨"uusd", 2⟩] ⟨"uusd", 1⟩ = false → resp = []) ∧
      ((mapGet "X" s2.purchases).getD []).length =
        ((mapGet "X" storW.purchases).getD []).length + 1 := by
  exact c4_clamp_and_surplus_refund.2 0 10 ⟨5, "crowdfund"⟩
    ⟨"X", [⟨"uusd", 12⟩]⟩ storW _ 1 1 [⟨"uusd", 2⟩] rfl (by decide) (by decide)
    (by decide) (by decide) (by decide) (by decide) (by decide) (by decide)
    (by decide)

/-- C6 amended (registry count invariant): the counter equals the registry size
on instantiation; minting a fresh identifier and successful purchases preserve
the equality; but a settlement burn batch removes the queried identifiers from
the registry while leaving the counter untouched, so the equality fails after a
burn step that removes at least one present identifier without clearing
state. -/
theorem c6_registry_counter_amended :
    (∀ (o a : String) (b : Bool), counterSync (instantiate o a b)) ∧
    (∀ (env : EnvT) (storage : Storage) (tc : String) (m : CrowdfundMintMsg)
       (s2 : Storage) (resp : Response),
       counterSync storage →
       (m.owner.getD env.contractAddr = env.contractAddr →
         setHas m.token_id storage.available_tokens = false) →
       mint env storage tc m = .ok (s2, resp) → counterSync s2) ∧
    (∀ (t r : Nat) (env : EnvT) (info : Info) (storage : Storage)
       (n : Option Nat) (s2 : Storage) (resp : Response),
       counterSync storage →
       execute_purchase t r env info storage n = .ok (s2, resp) →
       counterSync s2) ∧
    (∀ (cw : List (String × String)) (storage : Storage) (addr : String)
       (limit : Nat),
       (get_burn_messages cw storage addr limit).1.number_of_tokens_available =
         storage.number_of_tokens_available ∧
       (get_burn_messages cw storage addr limit).1.available_tokens =
         (query_tokens cw addr limit).foldl (fun a x => setRemove x a)
           storage.available_tokens) := by
  refine ⟨?_, ?_, ?_, ?_⟩
  · intro o a b
    rfl
  · intro env storage tc m s2 resp hsync hfresh hm
    simp only [mint, bind, Except.bind, addPan] at hm
    by_cases how : m.owner.getD env.contractAddr = env.contractAddr
    · rw [if_pos how] at hm
      by_cases hof : storage.number_of_tokens_available + 1 < U128LIM
      · rw [if_pos hof] at hm
        simp only [Except.ok.injEq, Prod.mk.injEq] at hm
        obtain ⟨hs2, _⟩ := hm
        rw [← hs2]
        unfold counterSync at hsync ⊢
        dsimp only
        rw [setInsert_length_of_fresh (hfresh how)]
        omega
      · rw [if_neg hof] at hm
        simp at hm
    · rw [if_neg how] at hm
      simp only [Except.ok.injEq, Prod.mk.injEq] at hm
      obtain ⟨hs2, _⟩ := hm
      rw [← hs2]
      exact hsync
  · intro t r env info storage n s2 resp hsync h
    obtain ⟨st, w, ids, hst, hids, hne, hcnt, hcounter, havail, hledger, hbase,
      hfull⟩ := execute_purchase_ok_inv h
    unfold counterSync at hsync ⊢
    rw [hcounter, havail, List.length_drop]
    have hlen : ids.length = min w storage.available_tokens.length := by
      rw [hids]
      exact List.length_take _ _
    omega
  · intro cw storage addr limit
    exact ⟨rfl, rfl⟩

/-- C6 witness: the freshly instantiated engine satisfies the counter
invariant, and minting the fresh token "A" to the engine preserves it, by the
theorem. -/
theorem c6_registry_counter_amended_witness :
    counterSync (instantiate "alice" "cw721" true) ∧ counterSync storMintW := by
  refine ⟨c6_registry_counter_amended.1 "alice" "cw721" true, ?_⟩
  exact c6_registry_counter_amended.2.1 ⟨0, "crowdfund"⟩
    (instantiate "alice" "cw721" true) "cw721" ⟨"A", none⟩ storMintW
    [.wasmMint "cw721" "A" "crowdfund"] rfl (fun _ => by decide)
    (by decide)

end FlexiPay

